import Mathlib

/-!
# Verified model of the troubadour player core

This file embeds the per-sound playback engine of
`troubadour_lib/src/player.rs` and settles the specification's claims
about it.

Modelling conventions:

* Durations and instants are natural numbers counting an abstract tick
  (for concrete examples one tick is one second).  `std::time::Instant`
  is modelled by passing the current clock value `now : ℕ` to every
  function that reads the clock; `instant.elapsed()` becomes
  `now - instant`.
* Rust `Duration` subtraction panics on underflow.  Every subtraction
  that can underflow on an invariant-respecting state is modelled
  exactly: `checked_sub` inside the `cut_start` and `toggle_loop` resume
  selection (`none` models the panic), and the `_checked` variants of
  `get_loop_length`, `duration_rem` and `get_looped_play_time`
  (underflow when `cut_start + cut_end > base_length`, NaN at a zero
  divisor).  Subtractions that the source guards at their use site, or
  that can only underflow for configurations violating the spec §9
  invariant `cut_start + cut_end ≤ base_length` (settled by the safety
  claim), are truncated.
* `duration_rem` converts both durations to `f64` seconds, takes the
  exact float remainder and converts back.  On durations whose tick
  count is exactly representable (every concrete duration appearing in
  the spec) this is the natural-number remainder, which is how it is
  modelled here.
* `rodio` stream combinators are modelled symbolically: `apply_settings`
  builds an `SStream` expression out of the cached decoded source, and
  `total_duration()` is evaluated structurally by `totalDuration`
  (`none` for the infinite sources `mix`-with-`Zero` and
  `repeat_infinite`).
* The `f32` volume curve is modelled over ℝ (`realVolume`); every value
  the claims mention (`2^0`, `2^(-32)`) is computed exactly by `f32`
  arithmetic as well.
* `Result<(), Error>` on the transport operations is modelled by
  `Option`: `some` is `Ok`.  Every path of `play`/`apply_settings` in
  the source ends in `Ok(())`.
-/

/-- Symbolic expression for the sample stream that `apply_settings`
composes out of the cached decoded source (`Buffered<Decoder<File>>`).
Constructors mirror the `rodio` combinators used by the source:
`take_duration`, `skip_duration`, `mix` with a `Zero` silence source,
`repeat_infinite` and `delay`. -/
inductive SStream where
  | source : SStream
  | takeDuration : ℕ → SStream → SStream
  | skipDuration : ℕ → SStream → SStream
  | mixSilence : SStream → SStream
  | repeatInfinite : SStream → SStream
  | delay : ℕ → SStream → SStream
deriving DecidableEq

/-- `Source::total_duration` of a symbolic stream whose decoded source has
length `base`: `take_duration` caps the length, `skip_duration` removes
from the front, mixing with the infinite `Zero` silence and
`repeat_infinite` have no total duration. -/
def totalDuration (base : ℕ) : SStream → Option ℕ
  | .source => some base
  | .takeDuration d s =>
      some (match totalDuration base s with
            | some l => min d l
            | none => d)
  | .skipDuration d s => (totalDuration base s).map (fun l => l - d)
  | .mixSilence _ => none
  | .repeatInfinite _ => none
  | .delay d s => (totalDuration base s).map (fun l => d + l)

/-- The `rodio::Sink` owned by a `Player`: a queue of appended streams and
a paused flag. -/
structure Sink where
  queue : List SStream
  paused : Bool
deriving DecidableEq

/-- `Sink::empty`. -/
def Sink.empty (s : Sink) : Bool := s.queue.isEmpty

/-- `Sink::skip_one`: drops the stream currently at the front of the
queue. -/
def Sink.skip_one (s : Sink) : Sink := { s with queue := s.queue.drop 1 }

/-- `Sink::append`. -/
def Sink.append (s : Sink) (str : SStream) : Sink :=
  { s with queue := s.queue ++ [str] }

/-- `Sink::play`. -/
def Sink.play (s : Sink) : Sink := { s with paused := false }

/-- `Sink::pause`. -/
def Sink.pause (s : Sink) : Sink := { s with paused := true }

/-- `Sink::clear`: removes all queued sources and pauses the sink. -/
def Sink.clear (_ : Sink) : Sink := { queue := [], paused := true }

/-- The `Player` struct of `troubadour_lib/src/player.rs`.  The `audio`
field is represented by its observable parts: the owned sink and the
total duration `base_length` of the cached decoded source. -/
structure Player where
  media : String
  last_time_poll : Option ℕ
  time_at_last_poll : ℕ
  name : String
  base_length : ℕ
  group : Option String
  playing : Bool
  paused : Bool
  volume : ℕ
  looping : Bool
  loop_gap : ℕ
  delay_length : ℕ
  cut_end : ℕ
  cut_start : ℕ
  sink : Sink
deriving DecidableEq

/-- `Player::get_is_paused`. -/
def Player.get_is_paused (pl : Player) : Bool :=
  pl.paused && !pl.sink.empty && !pl.playing && pl.sink.paused

/-- `Player::get_is_playing`. -/
def Player.get_is_playing (pl : Player) : Bool :=
  pl.playing && !pl.sink.empty && !pl.paused && !pl.sink.paused

/-- `Player::get_play_time`, with the current instant passed in as `now`.
`last_time_poll.unwrap().elapsed()` is `now - t` under the `is_some`
guard. -/
def Player.get_play_time (pl : Player) (now : ℕ) : ℕ :=
  if pl.get_is_playing && pl.last_time_poll.isSome then
    pl.time_at_last_poll + (now - pl.last_time_poll.getD 0)
  else if !pl.get_is_playing && pl.get_is_paused then
    pl.time_at_last_poll
  else 0

/-- `Player::get_loop_length`
(`base_length - (cut_start + cut_end) + loop_gap`), with the `Duration`
subtraction modelled as truncated; `get_loop_length_checked` below models
the panic on underflow. -/
def Player.get_loop_length (pl : Player) : ℕ :=
  pl.base_length - (pl.cut_start + pl.cut_end) + pl.loop_gap

/-- `duration_rem(a, b)`: the remainder of `a` divided by `b`.  The
source computes it through an exact `f64` remainder of the two second
counts; on representable tick counts that is the natural remainder.
`duration_rem_checked` below models the NaN panic at `b = 0`. -/
def duration_rem (a b : ℕ) : ℕ := a % b

/-- `Player::get_looped_play_time`: remainder of play time past the delay
by the loop length, `none` while stopped or still inside the delay. -/
def Player.get_looped_play_time (pl : Player) (now : ℕ) : Option ℕ :=
  let play_time := pl.get_play_time now
  if pl.delay_length < play_time then
    some (duration_rem (pl.get_play_time now - pl.delay_length) pl.get_loop_length)
  else none

/-- Panic-aware variant of `get_loop_length`: `none` models the
`Duration` subtraction overflow panic when `cut_start + cut_end`
exceeds `base_length`. -/
def Player.get_loop_length_checked (pl : Player) : Option ℕ :=
  if pl.cut_start + pl.cut_end ≤ pl.base_length then
    some (pl.base_length - (pl.cut_start + pl.cut_end) + pl.loop_gap)
  else none

/-- Panic-aware variant of `duration_rem`: with divisor zero the `f64`
remainder is NaN and `Duration::from_secs_f64` panics. -/
def duration_rem_checked (a b : ℕ) : Option ℕ :=
  if b = 0 then none else some (a % b)

/-- Checked `Duration` subtraction `a - b`: `none` models the Rust panic
on overflow (`b > a`). -/
def checked_sub (a b : ℕ) : Option ℕ :=
  if b ≤ a then some (a - b) else none

/-- Panic-aware variant of `get_looped_play_time`: outer `none` models a
panic in `get_loop_length` or `duration_rem`, `some none` the regular
still-in-delay answer. -/
def Player.get_looped_play_time_checked (pl : Player) (now : ℕ) : Option (Option ℕ) :=
  let play_time := pl.get_play_time now
  if pl.delay_length < play_time then
    match pl.get_loop_length_checked with
    | none => none
    | some ll => (duration_rem_checked (play_time - pl.delay_length) ll).map some
  else some none

/-- The stream that `Player::apply_settings` composes out of the cached
decoded source, stage by stage as in the nested `optional!` blocks of the
source: cut the end, cut the front, pad a loop gap (mix with `Zero`
silence and take `total_duration + loop_gap`), repeat, delay, and skip to
the resume offset. -/
def Player.composed_stream (pl : Player) (start_at : ℕ) : SStream :=
  let d0 := SStream.source
  let d1 := if 0 < pl.cut_end then
      SStream.takeDuration (pl.base_length - pl.cut_end) d0 else d0
  let d2 := if 0 < pl.cut_start then
      SStream.skipDuration pl.cut_start d1 else d1
  let d3 := if pl.looping ∧ 0 < pl.loop_gap then
      SStream.takeDuration ((totalDuration pl.base_length d2).getD 0 + pl.loop_gap)
        (SStream.mixSilence d2)
    else d2
  let d4 := if pl.looping then SStream.repeatInfinite d3 else d3
  let d5 := if 0 < pl.delay_length then SStream.delay pl.delay_length d4 else d4
  if 0 < start_at then SStream.skipDuration start_at d5 else d5

/-- `Player::apply_settings`: records whether the player was playing,
discards the stream the sink already held (`skip_one` under the
non-empty guard), appends the freshly composed stream, then starts or
pauses the sink. -/
def Player.apply_settings (pl : Player) (play_if_not_playing : Bool) (start_at : ℕ) : Player :=
  let was_playing := pl.get_is_playing
  let sink1 := if pl.sink.empty then pl.sink else pl.sink.skip_one
  let sink2 := sink1.append (pl.composed_stream start_at)
  let sink3 := if was_playing || play_if_not_playing then sink2.play else sink2.pause
  { pl with sink := sink3 }

/-- Pipeline of §4.1 of the specification, worded from the spec for
comparison with `Player.composed_stream`: the same guarded stages, with
stage 3 truncating the mixed result to the derived quantity
`loop_length = base_length - cut_start - cut_end + loop_gap`. -/
def spec_pipeline (pl : Player) (resume_offset : ℕ) : SStream :=
  let s0 := SStream.source
  let s1 := if 0 < pl.cut_end then
      SStream.takeDuration (pl.base_length - pl.cut_end) s0 else s0
  let s2 := if 0 < pl.cut_start then
      SStream.skipDuration pl.cut_start s1 else s1
  let s3 := if pl.looping ∧ 0 < pl.loop_gap then
      SStream.takeDuration (pl.base_length - pl.cut_start - pl.cut_end + pl.loop_gap)
        (SStream.mixSilence s2)
    else s2
  let s4 := if pl.looping then SStream.repeatInfinite s3 else s3
  let s5 := if 0 < pl.delay_length then SStream.delay pl.delay_length s4 else s4
  if 0 < resume_offset then SStream.skipDuration resume_offset s5 else s5

/-- `Player::play`, with the current instant `now`.  `some` models
`Ok`; every path of the source returns `Ok(())`. -/
def Player.play (pl : Player) (now : ℕ) : Option Player :=
  if pl.get_is_playing then some pl
  else
    let pl1 := { pl with last_time_poll := some now }
    if pl1.get_is_paused then
      some { pl1 with sink := pl1.sink.play, playing := true, paused := false }
    else
      let pl2 := { pl1 with time_at_last_poll := 0 }
      let pl3 := pl2.apply_settings true 0
      some { pl3 with playing := true, paused := false }

/-- `Player::pause`. -/
def Player.pause (pl : Player) (now : ℕ) : Player :=
  if pl.get_is_playing then
    { pl with
      time_at_last_poll := pl.get_play_time now
      last_time_poll := some now
      sink := pl.sink.pause
      paused := true
      playing := false }
  else pl

/-- `Player::stop`: clears the sink, resets both time-tracking fields and
both flags, unconditionally. -/
def Player.stop (pl : Player) : Player :=
  { pl with
    playing := false
    paused := false
    last_time_poll := none
    time_at_last_poll := 0
    sink := pl.sink.clear }

/-- The `start_at` resume offset that `Player::cut_start` selects before
storing the new cut and calling `apply_settings(false, start_at)`.  Both
`Duration` subtractions of the source are modelled by `checked_sub`:
`cut - self.cut_start` underflows (panics) whenever the cut shrinks below
the old one, and its result is then subtracted from the looped play time
(which the branch guard keeps at least `cut`, so only the first
subtraction can actually fail).  `none` models the panic, `some` the
selected offset. -/
def Player.cut_start_resume (pl : Player) (now cut : ℕ) : Option ℕ :=
  if pl.last_time_poll.isSome then
    match pl.get_looped_play_time now with
    | some play_time =>
        if play_time < cut then some (cut + pl.delay_length)
        else
          match checked_sub cut pl.cut_start with
          | none => none
          | some shrink =>
              match checked_sub play_time shrink with
              | none => none
              | some shifted => some (shifted + pl.delay_length)
    | none => some (pl.get_play_time now)
  else some 0

/-- `Player::cut_start`: select the resume offset, store the cut, rebuild
the pipeline; `none` propagates the selection panic. -/
def Player.set_cut_start (pl : Player) (now cut : ℕ) : Option Player :=
  (pl.cut_start_resume now cut).map
    (fun start_at => Player.apply_settings { pl with cut_start := cut } false start_at)

/-- The `start_at` resume offset that `Player::cut_end` selects before
storing the new cut and calling `apply_settings(false, start_at)`. -/
def Player.cut_end_resume (pl : Player) (now cut : ℕ) : ℕ :=
  if pl.last_time_poll.isSome then
    match pl.get_looped_play_time now with
    | some play_time =>
        let cut_location := pl.base_length - cut - pl.cut_start
        let end_location := pl.base_length - pl.cut_end - pl.cut_start
        if cut_location < end_location ∧ cut_location < play_time ∧ play_time < end_location then
          cut_location + pl.delay_length
        else if end_location < cut_location ∧ end_location < play_time then
          play_time + pl.delay_length + (cut_location - end_location)
        else play_time + pl.delay_length
    | none => pl.get_play_time now
  else 0

/-- `Player::cut_end`: select the resume offset, store the cut, rebuild
the pipeline. -/
def Player.set_cut_end (pl : Player) (now cut : ℕ) : Player :=
  Player.apply_settings { pl with cut_end := cut } false (pl.cut_end_resume now cut)

/-- The `start_at` resume offset that `Player::toggle_loop` selects.  The
bound is `get_loop_length()` (computed before the new gap is stored, so
with the old gap) plus `(looping ? length : 0) - loop_gap`, exactly as
parenthesised in the source; that `Duration` subtraction underflows
(panics) whenever the enabled gap term is smaller than the old gap —
in particular on `toggle_loop(false, _)` with a positive old gap —
modelled by `checked_sub`.  `none` models the panic, `some` the selected
offset. -/
def Player.toggle_loop_resume (pl : Player) (now : ℕ) (looping : Bool) (length : ℕ) :
    Option ℕ :=
  if pl.last_time_poll.isSome then
    match pl.get_looped_play_time now with
    | some play_time =>
        match checked_sub (if looping then length else 0) pl.loop_gap with
        | none => none
        | some extra =>
            some (min (play_time + pl.delay_length) (pl.get_loop_length + extra))
    | none => some (pl.get_play_time now)
  else some 0

/-- `Player::toggle_loop`: select the resume offset, store the flag and
gap, rebuild the pipeline; `none` propagates the selection panic. -/
def Player.set_toggle_loop (pl : Player) (now : ℕ) (looping : Bool) (length : ℕ) :
    Option Player :=
  (pl.toggle_loop_resume now looping length).map
    (fun start_at =>
      Player.apply_settings { pl with looping := looping, loop_gap := length } false start_at)

/-- The persisted record (`Serializable`). -/
structure Serializable where
  media : String
  name : String
  group : Option String
  volume : ℕ
  looping : Bool
  loop_gap : ℕ
  delay_length : ℕ
  cut_end : ℕ
  cut_start : ℕ
deriving DecidableEq

/-- `Player::to_serializable`. -/
def Player.to_serializable (pl : Player) : Serializable :=
  { name := pl.name
    group := pl.group
    media := pl.media
    volume := pl.volume
    looping := pl.looping
    loop_gap := pl.loop_gap
    delay_length := pl.delay_length
    cut_end := pl.cut_end
    cut_start := pl.cut_start }

/-- `Player::from_serializable`: reconstructs a player from the record
with a fresh audio handle.  `decoded_length` is the total duration the
decoder reports for the media; the fresh sink is empty and not paused.
The final `volume(player.volume)` call re-stores the same volume field
and sets the sink amplitude (modelled by `realVolume`). -/
def Player.from_serializable (s : Serializable) (decoded_length : ℕ) : Player :=
  { media := s.media
    last_time_poll := none
    time_at_last_poll := 0
    name := s.name
    base_length := decoded_length
    group := s.group
    playing := false
    paused := false
    volume := s.volume
    looping := s.looping
    loop_gap := s.loop_gap
    delay_length := s.delay_length
    cut_end := s.cut_end
    cut_start := s.cut_start
    sink := { queue := [], paused := false } }

/-- The amplitude that `Player::volume` computes and hands to
`Sink::set_volume`:
`2 ^ (sqrt(sqrt(sqrt(v / 100))).mul_add(192, -192) / 6)`, modelled over
ℝ. -/
noncomputable def realVolume (v : ℕ) : ℝ :=
  (2 : ℝ) ^ ((Real.sqrt (Real.sqrt (Real.sqrt ((v : ℝ) / 100))) * 192 - 192) / 6)

/-- The amplitude formula as the specification words it:
`2 ^ ((cbrt(cbrt(cbrt(v / 100))) * 192 - 192) / 6)`, for comparison with
`realVolume`. -/
noncomputable def spec_volume_curve (v : ℕ) : ℝ :=
  (2 : ℝ) ^
    ((((((v : ℝ) / 100) ^ ((1 : ℝ) / 3)) ^ ((1 : ℝ) / 3)) ^ ((1 : ℝ) / 3) * 192 - 192) / 6)

/-- `Player::volume` stores the percentage; the amplitude handed to the
sink is `realVolume v`. -/
def Player.apply_volume (pl : Player) (v : ℕ) : Player :=
  { pl with volume := v }

/-- A player ten ticks of sound, playing since instant 0, used as a
concrete input for witnesses. -/
def p_playing : Player :=
  { media := "m"
    last_time_poll := some 0
    time_at_last_poll := 0
    name := "a"
    base_length := 12
    group := none
    playing := true
    paused := false
    volume := 100
    looping := false
    loop_gap := 0
    delay_length := 0
    cut_end := 0
    cut_start := 0
    sink := { queue := [SStream.source], paused := false } }

/-- Concrete player for the `cut_end` lengthening case: 20 ticks of
sound, 8 cut from the end, a 10-tick loop gap, playing since instant
0. -/
def p_cut_end : Player :=
  { p_playing with base_length := 20, cut_end := 8, loop_gap := 10 }

/-- Concrete player for the `toggle_loop` cap: 10 ticks of sound, a
12-tick delay, playing since instant 0. -/
def p_toggle : Player :=
  { p_playing with base_length := 10, delay_length := 12 }

/-- Concrete player for shrinking the front cut: 12 ticks of sound with
`cut_start = 5` (loop length 7), playing since instant 0. -/
def p_shrink : Player :=
  { p_playing with cut_start := 5 }

/-- Concrete player violating `cut_start + cut_end ≤ base_length`. -/
def p_overcut : Player :=
  { p_playing with base_length := 0, cut_start := 1 }

/-- Concrete player with loop length zero while past its delay. -/
def p_zero_loop : Player :=
  { p_playing with base_length := 0 }

/-- Helper: the stream `apply_settings` composes equals the pipeline as the
specification words it; in particular the stage-3 truncation amount
`total_duration + loop_gap` is exactly `loop_length`. -/
theorem composed_stream_eq_spec (pl : Player) (start_at : ℕ) :
    pl.composed_stream start_at = spec_pipeline pl start_at := by
  simp only [Player.composed_stream, spec_pipeline]
  split_ifs <;> simp_all [totalDuration] <;> omega

/-- C1: for every player state and resume offset, `apply_settings` composes
the stream from the cached decoded source in exactly the guarded stage
order of the spec (cut end, cut start, loop-gap padding truncated to
`loop_length`, infinite repeat, delay, resume skip), and — the sink holding
at most one stream — discards the held stream before appending, so exactly
the freshly composed stream is live afterwards. -/
theorem apply_settings_matches_spec_pipeline (pl : Player) (play_if_not_playing : Bool)
    (start_at : ℕ) (h : pl.sink.queue.length ≤ 1) :
    (pl.apply_settings play_if_not_playing start_at).sink.queue
      = [spec_pipeline pl start_at] := by
  have hc := composed_stream_eq_spec pl start_at
  rcases hql : pl.sink.queue with _ | ⟨s, rest⟩
  · simp [Player.apply_settings, Sink.append, Sink.play, Sink.pause, Sink.empty,
      Sink.skip_one, apply_ite Sink.queue, hql, hc]
  · have hr : rest = [] := by
      rw [hql] at h
      simpa using h
    subst hr
    simp [Player.apply_settings, Sink.append, Sink.play, Sink.pause, Sink.empty,
      Sink.skip_one, apply_ite Sink.queue, hql, hc]

/-- Closed witness for C1 at a concrete playing player. -/
theorem apply_settings_matches_spec_pipeline_witness :
    p_playing.sink.queue.length ≤ 1 ∧
      (p_playing.apply_settings true 0).sink.queue = [spec_pipeline p_playing 0] :=
  ⟨by decide, apply_settings_matches_spec_pipeline p_playing true 0 (by decide)⟩

/-- C2 counterexample: shrinking the front cut while the looped position
is at or past the new cut makes the source's `cut - self.cut_start`
underflow, so the program panics instead of selecting the claimed
`(p - (new_cut - old_cut)) + delay_length`.  Concretely: old cut `5`
(loop length `7`), position `p = 3 ≥ 2`, `cut_start(2)` selects
nothing. -/
theorem cut_start_resume_counterexample :
    p_shrink.cut_start = 5 ∧
      p_shrink.get_looped_play_time 3 = some 3 ∧
      ¬ (3 : ℕ) < 2 ∧
      p_shrink.cut_start_resume 3 2 = none := by
  decide

/-- C2 as amended: whenever the looped position `p` is defined (poll
timestamp set, as in every reachable such state), `cut_start(new_cut)`
selects `new_cut + delay_length` if `p < new_cut`; otherwise, provided
the cut did not shrink (`old_cut ≤ new_cut`), it selects
`(p - (new_cut - old_cut)) + delay_length`; when the cut shrinks
(`new_cut < old_cut`) with `p ≥ new_cut`, the `Duration` subtraction
`new_cut - old_cut` overflows and the call panics, selecting nothing.
With `p` undefined it selects `get_play_time()`. -/
theorem cut_start_resume_selection (pl : Player) (now cut : ℕ)
    (h : pl.last_time_poll.isSome = true) :
    (∀ p, pl.get_looped_play_time now = some p →
        (p < cut →
          pl.cut_start_resume now cut = some (cut + pl.delay_length)) ∧
        (¬ p < cut → pl.cut_start ≤ cut →
          pl.cut_start_resume now cut
            = some (p - (cut - pl.cut_start) + pl.delay_length)) ∧
        (¬ p < cut → cut < pl.cut_start →
          pl.cut_start_resume now cut = none)) ∧
      (pl.get_looped_play_time now = none →
        pl.cut_start_resume now cut = some (pl.get_play_time now)) := by
  constructor
  · intro p hp
    refine ⟨fun hlt => by simp [Player.cut_start_resume, h, hp, hlt], ?_, ?_⟩
    · intro hge hle
      have hd : checked_sub cut pl.cut_start = some (cut - pl.cut_start) := by
        unfold checked_sub
        rw [if_pos hle]
      have hr : checked_sub p (cut - pl.cut_start) = some (p - (cut - pl.cut_start)) := by
        unfold checked_sub
        rw [if_pos (by omega)]
      simp [Player.cut_start_resume, h, hp, hge, hd, hr]
    · intro hge hgt
      have hd : checked_sub cut pl.cut_start = none := by
        unfold checked_sub
        rw [if_neg (by omega)]
      simp [Player.cut_start_resume, h, hp, hge, hd]
  · intro hp
    simp [Player.cut_start_resume, h, hp]

/-- Closed witness for the amended C2: the spec's test vector —
`loop_length = 12`, `delay_length = 0`, position `p = 3`, old cut `0`,
`cut_start(5)` selects resume offset `5`. -/
theorem cut_start_resume_selection_witness :
    p_playing.last_time_poll.isSome = true ∧
      p_playing.get_loop_length = 12 ∧
      p_playing.get_looped_play_time 3 = some 3 ∧
      p_playing.cut_start_resume 3 5 = some 5 := by
  have hmain :=
    ((cut_start_resume_selection p_playing 3 5 (by decide)).1 3 (by decide)).1 (by decide)
  refine ⟨by decide, by decide, by decide, ?_⟩
  rw [hmain]
  decide

/-- C3: whenever the looped position `p` is defined (poll timestamp set),
`cut_end(new_cut)` with `cut_location = base_length - new_cut - cut_start`
and `end_location = base_length - old_cut_end - cut_start` selects
`cut_location + delay_length` when the track shortened and `p` lies between
the boundaries, `p + delay_length + (cut_location - end_location)` when it
lengthened and `p > end_location`, and `p + delay_length` otherwise; with
`p` undefined it selects `get_play_time()`. -/
theorem cut_end_resume_selection (pl : Player) (now cut : ℕ)
    (h : pl.last_time_poll.isSome = true) :
    (∀ p, pl.get_looped_play_time now = some p →
        pl.cut_end_resume now cut =
          if pl.base_length - cut - pl.cut_start < pl.base_length - pl.cut_end - pl.cut_start
              ∧ pl.base_length - cut - pl.cut_start < p
              ∧ p < pl.base_length - pl.cut_end - pl.cut_start then
            pl.base_length - cut - pl.cut_start + pl.delay_length
          else if pl.base_length - pl.cut_end - pl.cut_start
                < pl.base_length - cut - pl.cut_start
              ∧ pl.base_length - pl.cut_end - pl.cut_start < p then
            p + pl.delay_length
              + (pl.base_length - cut - pl.cut_start
                  - (pl.base_length - pl.cut_end - pl.cut_start))
          else p + pl.delay_length) ∧
      (pl.get_looped_play_time now = none →
        pl.cut_end_resume now cut = pl.get_play_time now) := by
  constructor
  · intro p hp
    simp [Player.cut_end_resume, h, hp]
  · intro hp
    simp [Player.cut_end_resume, h, hp]

/-- Closed witness for C3: the spec's lengthening case — old boundary `12`,
new boundary `18`, position `15 > 12`, so the resume offset is
`15 + 0 + (18 - 12) = 21`. -/
theorem cut_end_resume_selection_witness :
    p_cut_end.last_time_poll.isSome = true ∧
      p_cut_end.get_looped_play_time 15 = some 15 ∧
      p_cut_end.cut_end_resume 15 2 = 21 := by
  have hmain := (cut_end_resume_selection p_cut_end 15 2 (by decide)).1 15 (by decide)
  refine ⟨by decide, by decide, ?_⟩
  rw [hmain]
  decide

/-- C4 counterexample: the claim's cap uses the *new* loop length
(`base_length - cut_start - cut_end + new_gap`), but the code computes
`get_loop_length()` before storing the new gap.  At `base_length = 10`,
no cuts, old gap `0`, `delay_length = 12`, position `p = 3`,
`toggle_loop(true, 4)` the code selects `min(15, 14) = 14`, while the
claim's formula `min(p + delay, new_loop_length + new_gap - old_gap)`
gives `min(15, 18) = 15`.  Moreover, disabling looping with a positive
old gap makes `0 - loop_gap` underflow, so the program panics there
instead of selecting the claim's value. -/
theorem toggle_loop_resume_counterexample :
    p_toggle.get_looped_play_time 25 = some 3 ∧
      p_toggle.toggle_loop_resume 25 true 4 = some 14 ∧
      p_toggle.toggle_loop_resume 25 true 4 ≠
        some (min (3 + p_toggle.delay_length)
          (p_toggle.base_length - p_toggle.cut_start - p_toggle.cut_end + 4
            + 4 - p_toggle.loop_gap)) ∧
      p_cut_end.loop_gap = 10 ∧
      p_cut_end.get_looped_play_time 15 = some 15 ∧
      p_cut_end.toggle_loop_resume 15 false 0 = none := by
  decide

/-- C4 as amended: whenever the looped position `p` is defined (poll
timestamp set), `toggle_loop(enable, new_gap)`, provided the enabled gap
term does not shrink (`old_gap ≤ (new_gap if enable else 0)`), selects
`min(p + delay_length, old_loop_length + ((new_gap if enable else 0) -
old_gap))`, where `old_loop_length = get_loop_length()` is computed before
the new gap is stored; when `(new_gap if enable else 0) < old_gap` the
`Duration` subtraction overflows and the call panics, selecting nothing.
With `p` undefined it selects `get_play_time()`. -/
theorem toggle_loop_resume_selection (pl : Player) (now : ℕ) (looping : Bool) (length : ℕ)
    (h : pl.last_time_poll.isSome = true) :
    (∀ p, pl.get_looped_play_time now = some p →
        (pl.loop_gap ≤ (if looping then length else 0) →
          pl.toggle_loop_resume now looping length
            = some (min (p + pl.delay_length)
                (pl.get_loop_length + ((if looping then length else 0) - pl.loop_gap)))) ∧
        ((if looping then length else 0) < pl.loop_gap →
          pl.toggle_loop_resume now looping length = none)) ∧
      (pl.get_looped_play_time now = none →
        pl.toggle_loop_resume now looping length = some (pl.get_play_time now)) := by
  constructor
  · intro p hp
    constructor
    · intro hle
      have hd : checked_sub (if looping then length else 0) pl.loop_gap
          = some ((if looping then length else 0) - pl.loop_gap) := by
        unfold checked_sub
        rw [if_pos hle]
      simp [Player.toggle_loop_resume, h, hp, hd]
    · intro hgt
      have hd : checked_sub (if looping then length else 0) pl.loop_gap = none := by
        unfold checked_sub
        rw [if_neg (by omega)]
      simp [Player.toggle_loop_resume, h, hp, hd]
  · intro hp
    simp [Player.toggle_loop_resume, h, hp]

/-- Closed witness for the amended C4 at the counterexample state: the
gap grows from `0` to `4`, so the cap is the old loop length `10` plus
the enabled gap `4`. -/
theorem toggle_loop_resume_selection_witness :
    p_toggle.last_time_poll.isSome = true ∧
      p_toggle.loop_gap ≤ 4 ∧
      p_toggle.get_looped_play_time 25 = some 3 ∧
      p_toggle.toggle_loop_resume 25 true 4 = some 14 := by
  have hmain :=
    ((toggle_loop_resume_selection p_toggle 25 true 4 (by decide)).1 3 (by decide)).1 (by decide)
  refine ⟨by decide, by decide, by decide, ?_⟩
  rw [hmain]
  decide

/-- C5: immediately after `stop()` the player is Stopped — not playing,
not paused, sink cleared, both time-tracking fields reset — and
`get_play_time()` is `0`, regardless of the prior state. -/
theorem stop_results_in_stopped (pl : Player) (now : ℕ) :
    (pl.stop).get_is_playing = false ∧ (pl.stop).get_is_paused = false ∧
      (pl.stop).sink.queue = [] ∧ (pl.stop).last_time_poll = none ∧
      (pl.stop).time_at_last_poll = 0 ∧ (pl.stop).get_play_time now = 0 := by
  simp [Player.stop, Sink.clear, Player.get_is_playing, Player.get_is_paused,
    Player.get_play_time, Sink.empty]

/-- C6: calling `play()` while already Playing returns success and leaves
the entire player state unchanged, and calling it twice in a row while
already Playing returns success (with the same unchanged state) both
times. -/
theorem play_idempotent_when_playing (pl : Player) (now now2 : ℕ)
    (h : pl.get_is_playing = true) :
    pl.play now = some pl ∧
      (pl.play now).bind (fun q => q.play now2) = some pl := by
  have h1 : pl.play now = some pl := by
    simp [Player.play, h]
  refine ⟨h1, ?_⟩
  rw [h1, Option.some_bind]
  simp [Player.play, h]

/-- Closed witness for C6 at a concrete playing player. -/
theorem play_idempotent_when_playing_witness :
    p_playing.get_is_playing = true ∧ p_playing.play 0 = some p_playing ∧
      (p_playing.play 0).bind (fun q => q.play 1) = some p_playing := by
  have hmain := play_idempotent_when_playing p_playing 0 1 (by decide)
  exact ⟨by decide, hmain.1, hmain.2⟩

/-- C7: for `b > 0`, `duration_rem a b` is the Euclidean remainder:
`a = k * b + duration_rem a b` for some `k`, and `duration_rem a b < b`. -/
theorem duration_rem_euclidean (a b : ℕ) (h : 0 < b) :
    (∃ k, a = k * b + duration_rem a b) ∧ duration_rem a b < b := by
  refine ⟨⟨a / b, ?_⟩, Nat.mod_lt a h⟩
  unfold duration_rem
  calc a = b * (a / b) + a % b := (Nat.div_add_mod a b).symm
    _ = a / b * b + a % b := by rw [Nat.mul_comm]

/-- Closed witness for C7: the spec's example `duration_rem 23 12 = 11`. -/
theorem duration_rem_euclidean_witness :
    (0 < 12 ∧ (∃ k, 23 = k * 12 + duration_rem 23 12) ∧ duration_rem 23 12 < 12) ∧
      duration_rem 23 12 = 11 :=
  ⟨⟨by decide, (duration_rem_euclidean 23 12 (by decide)).1,
    (duration_rem_euclidean 23 12 (by decide)).2⟩, by decide⟩

/-- C8: deserializing the serialized record reproduces `volume, looping,
loop_gap, delay_length, cut_start, cut_end, name, group` identically, and
the reconstructed player starts Stopped: flags false, no poll timestamp,
accumulated time zero. -/
theorem serialization_round_trip (pl : Player) (decoded_length : ℕ) :
    (Player.from_serializable pl.to_serializable decoded_length).volume = pl.volume ∧
      (Player.from_serializable pl.to_serializable decoded_length).looping = pl.looping ∧
      (Player.from_serializable pl.to_serializable decoded_length).loop_gap = pl.loop_gap ∧
      (Player.from_serializable pl.to_serializable decoded_length).delay_length
          = pl.delay_length ∧
      (Player.from_serializable pl.to_serializable decoded_length).cut_start = pl.cut_start ∧
      (Player.from_serializable pl.to_serializable decoded_length).cut_end = pl.cut_end ∧
      (Player.from_serializable pl.to_serializable decoded_length).name = pl.name ∧
      (Player.from_serializable pl.to_serializable decoded_length).group = pl.group ∧
      (Player.from_serializable pl.to_serializable decoded_length).playing = false ∧
      (Player.from_serializable pl.to_serializable decoded_length).paused = false ∧
      (Player.from_serializable pl.to_serializable decoded_length).last_time_poll = none ∧
      (Player.from_serializable pl.to_serializable decoded_length).time_at_last_poll = 0 ∧
      (Player.from_serializable pl.to_serializable decoded_length).get_is_playing = false ∧
      (Player.from_serializable pl.to_serializable decoded_length).get_is_paused = false :=
  ⟨rfl, rfl, rfl, rfl, rfl, rfl, rfl, rfl, rfl, rfl, rfl, rfl, rfl, rfl⟩

/-- C9 counterexample: the claim's amplitude curve uses three nested cube
roots, the code computes three nested square roots; at `volume = 50` the
two differ. -/
theorem volume_curve_counterexample : realVolume 50 ≠ spec_volume_curve 50 := by
  have hhalf : (0 : ℝ) ≤ 1 / 2 := by norm_num
  have h50 : ((50 : ℕ) : ℝ) / 100 = 1 / 2 := by norm_num
  have hs : Real.sqrt (Real.sqrt (Real.sqrt (((50 : ℕ) : ℝ) / 100)))
      = (1 / 2 : ℝ) ^ ((1 : ℝ) / 8) := by
    rw [h50, Real.sqrt_eq_rpow, Real.sqrt_eq_rpow, Real.sqrt_eq_rpow,
      ← Real.rpow_mul hhalf, ← Real.rpow_mul hhalf]
    norm_num
  have hc : (((((50 : ℕ) : ℝ) / 100) ^ ((1 : ℝ) / 3)) ^ ((1 : ℝ) / 3)) ^ ((1 : ℝ) / 3)
      = (1 / 2 : ℝ) ^ ((1 : ℝ) / 27) := by
    rw [h50, ← Real.rpow_mul hhalf, ← Real.rpow_mul hhalf]
    norm_num
  have hlt : (1 / 2 : ℝ) ^ ((1 : ℝ) / 8) < (1 / 2 : ℝ) ^ ((1 : ℝ) / 27) :=
    Real.rpow_lt_rpow_of_exponent_gt (by norm_num) (by norm_num) (by norm_num)
  apply ne_of_lt
  unfold realVolume spec_volume_curve
  rw [hs, hc]
  exact Real.rpow_lt_rpow_of_exponent_lt (by norm_num) (by linarith)

/-- C9 as amended: `volume(v)` stores `v`, and the amplitude handed to the
sink is `2 ^ ((sqrt(sqrt(sqrt(v/100))) * 192 - 192) / 6)` — the eighth
root, not the 27th; `volume(100)` yields amplitude exactly `1`, and
`volume(0)` an amplitude strictly between `0` and `1e-6`. -/
theorem volume_stores_and_endpoints :
    (∀ (pl : Player) (v : ℕ), (pl.apply_volume v).volume = v) ∧
      realVolume 100 = 1 ∧ 0 < realVolume 0 ∧ realVolume 0 < 1 / 1000000 := by
  have h0 : ((0 : ℕ) : ℝ) / 100 = 0 := by norm_num
  have hneg : ((0 : ℝ) * 192 - 192) / 6 = -32 := by norm_num
  have hpow : (2 : ℝ) ^ (-32 : ℝ) = ((2 : ℝ) ^ (32 : ℕ))⁻¹ := by
    rw [show (-32 : ℝ) = -((32 : ℕ) : ℝ) by norm_num,
      Real.rpow_neg (by norm_num), Real.rpow_natCast]
  refine ⟨fun pl v => rfl, ?_, ?_, ?_⟩
  · have h1 : ((100 : ℕ) : ℝ) / 100 = 1 := by norm_num
    unfold realVolume
    rw [h1, Real.sqrt_one, Real.sqrt_one, Real.sqrt_one,
      show ((1 : ℝ) * 192 - 192) / 6 = 0 by norm_num, Real.rpow_zero]
  · unfold realVolume
    rw [h0, Real.sqrt_zero, Real.sqrt_zero, Real.sqrt_zero, hneg]
    exact Real.rpow_pos_of_pos (by norm_num) _
  · unfold realVolume
    rw [h0, Real.sqrt_zero, Real.sqrt_zero, Real.sqrt_zero, hneg, hpow]
    norm_num

/-- C10: under the invariant `cut_start + cut_end ≤ base_length` and a
positive loop length, the `Duration` subtraction in `get_loop_length` and
the remainder in `get_looped_play_time` never hit a failure branch, and
`get_loop_length` returns `base_length - cut_start - cut_end + loop_gap`;
dropping either precondition makes a failure branch reachable. -/
theorem loop_arithmetic_safe :
    (∀ (pl : Player) (now : ℕ),
        pl.cut_start + pl.cut_end ≤ pl.base_length →
        0 < pl.base_length - pl.cut_start - pl.cut_end + pl.loop_gap →
        pl.get_loop_length_checked
            = some (pl.base_length - pl.cut_start - pl.cut_end + pl.loop_gap) ∧
          (pl.get_looped_play_time_checked now).isSome = true) ∧
      (∃ pl : Player, ¬ pl.cut_start + pl.cut_end ≤ pl.base_length ∧
        pl.get_loop_length_checked = none) ∧
      (∃ (pl : Player) (now : ℕ), pl.cut_start + pl.cut_end ≤ pl.base_length ∧
        ¬ 0 < pl.base_length - pl.cut_start - pl.cut_end + pl.loop_gap ∧
        pl.get_looped_play_time_checked now = none) := by
  refine ⟨?_, ⟨p_overcut, by decide⟩, ⟨p_zero_loop, 5, by decide⟩⟩
  intro pl now h1 h2
  have hll : pl.get_loop_length_checked
      = some (pl.base_length - (pl.cut_start + pl.cut_end) + pl.loop_gap) := by
    simp [Player.get_loop_length_checked, h1]
  constructor
  · rw [hll]
    simp [Nat.sub_sub]
  · unfold Player.get_looped_play_time_checked
    rw [hll]
    by_cases hpt : pl.delay_length < pl.get_play_time now
    · rw [if_pos hpt]
      simp [duration_rem_checked]
      omega
    · rw [if_neg hpt]
      simp

/-- Closed witness for C10 at a concrete playing player satisfying both
preconditions. -/
theorem loop_arithmetic_safe_witness :
    p_playing.get_loop_length_checked = some 12 ∧
      (p_playing.get_looped_play_time_checked 3).isSome = true := by
  have hmain := loop_arithmetic_safe.1 p_playing 3 (by decide) (by decide)
  refine ⟨?_, hmain.2⟩
  rw [hmain.1]
  decide
